import Mathlib

/-!
Shallow embedding of `src/library/schema.py` (CANFAR library manifest
validation, built on pydantic v2) and proofs about its validation contract.

The untyped input record (parsed JSON/YAML) is modelled by `Schema.Value`;
pydantic validation outcomes are modelled by `Schema.VOut`:
* `ok` — a fully validated model value;
* `errs` — a pydantic `ValidationError` carrying a list of located errors
  (pydantic collects field errors instead of stopping at the first one);
* `exn` — a Python exception that escapes `model_validate` untyped
  (pydantic only converts `ValueError`/`AssertionError` raised inside
  validators into validation errors; other exceptions such as
  `AttributeError` propagate to the caller).
-/

namespace Schema

/-- Raw structured value as produced by the external YAML/JSON loader.
Numbers are modelled by `ℚ` (the schema only passes them through; the one
numeric field `version` defaults to the constant `0.2`). -/
inductive Value where
  | null : Value
  | str : String → Value
  | num : ℚ → Value
  | bool : Bool → Value
  | arr : List Value → Value
  | obj : List (String × Value) → Value

/-- Kinds of pydantic validation errors relevant to this schema. -/
inductive ErrKind where
  | missing : ErrKind
  | stringType : ErrKind
  | modelType : ErrKind
  | listType : ErrKind
  | dictType : ErrKind
  | floatType : ErrKind
  | urlType : ErrKind
  | extraForbidden : ErrKind
  | enumMember : List String → ErrKind
  | valueError : String → ErrKind
deriving DecidableEq

/-- One located validation error: field path (pydantic `loc`) plus kind. -/
structure VErr where
  loc : List String
  kind : ErrKind
deriving DecidableEq

/-- Outcome of running a pydantic validator on a raw value. -/
inductive VOut (α : Type) where
  | ok : α → VOut α
  | errs : List VErr → VOut α
  | exn : String → VOut α
deriving DecidableEq

namespace VOut

/-- Map over a successful outcome. -/
def map (f : α → β) : VOut α → VOut β
  | .ok a => .ok (f a)
  | .errs e => .errs e
  | .exn s => .exn s

/-- Sequence two field validations left to right, accumulating validation
errors as pydantic does; an escaping exception aborts everything. -/
def app : VOut (α → β) → VOut α → VOut β
  | .exn s, _ => .exn s
  | .ok _, .exn s => .exn s
  | .errs _, .exn s => .exn s
  | .errs e₁, .errs e₂ => .errs (e₁ ++ e₂)
  | .errs e₁, .ok _ => .errs e₁
  | .ok _, .errs e₂ => .errs e₂
  | .ok f, .ok a => .ok (f a)

/-- Does the outcome carry an escaped (non-validation) exception? -/
def isExn : VOut α → Bool
  | .exn _ => true
  | _ => false

/-- The collected validation errors (empty for `ok` and `exn`). -/
def errsOf : VOut α → List VErr
  | .errs e => e
  | _ => []

end VOut

/-- Re-locate every error of a nested validation under the parent key `l`
(pydantic prefixes nested error locations with the field name). -/
def atLoc (l : String) : VOut α → VOut α
  | .errs e => .errs (e.map fun er => ⟨l :: er.loc, er.kind⟩)
  | x => x

/-- Lookup of a key in a parsed mapping (first match). -/
def getV : List (String × Value) → String → Option Value
  | [], _ => none
  | (k, v) :: rest, q => if k = q then some v else getV rest q

/-- Python `dict.get` semantics on loader output: a key mapped to JSON
`null` is indistinguishable from an absent key (both give `None`). -/
def pyGet (kvs : List (String × Value)) (k : String) : Option Value :=
  match getV kvs k with
  | some .null => none
  | x => x

/-- Boolean membership of a string in a list of allowed keys. -/
def keyIn (k : String) : List String → Bool
  | [] => false
  | a :: rest => decide (a = k) || keyIn k rest

/-- Strict-record check (`model_config = ConfigDict(extra="forbid")`):
one `extra_forbidden` error per input key outside the allowed set. -/
def extraErrs (kvs : List (String × Value)) (allowed : List String) : VOut Unit :=
  match (kvs.map Prod.fst).filter (fun q => ! keyIn q allowed) with
  | [] => .ok ()
  | ks => .errs (ks.map fun k => ⟨[k], .extraForbidden⟩)

/-- Split a character list at the first `://` separator. -/
def findSep : List Char → List Char → Option (List Char × List Char)
  | acc, ':' :: '/' :: '/' :: rest => some (acc.reverse, rest)
  | acc, c :: rest => findSep (c :: acc) rest
  | _, [] => none

/-- Modelled from the spec: pydantic `AnyUrl` (third-party code not under
`src/`) — `repo` "must parse as a valid URL"; approximated as a nonempty
alphabetic scheme, the `://` separator, and a nonempty remainder. -/
def isValidUrl (s : String) : Bool :=
  match findSep [] s.toList with
  | some (scheme, rest) => !scheme.isEmpty && scheme.all Char.isAlpha && !rest.isEmpty
  | none => false

/-- `class Architecture(str, Enum)`: container architectures. -/
inductive Architecture where
  | amd64 : Architecture
  | arm32v5 : Architecture
  | arm32v6 : Architecture
  | arm32v7 : Architecture
  | arm64v8 : Architecture
  | windowsAmd64 : Architecture
deriving DecidableEq

/-- The string value of each `Architecture` enum member. -/
def Architecture.value : Architecture → String
  | .amd64 => "amd64"
  | .arm32v5 => "arm32v5"
  | .arm32v6 => "arm32v6"
  | .arm32v7 => "arm32v7"
  | .arm64v8 => "arm64v8"
  | .windowsAmd64 => "windows-amd64"

/-- The closed architecture domain, in declaration order. -/
def archValues : List String :=
  ["amd64", "arm32v5", "arm32v6", "arm32v7", "arm64v8", "windows-amd64"]

/-- Parse a string as an `Architecture` enum member. -/
def archOfString (s : String) : Option Architecture :=
  if s = "amd64" then some .amd64
  else if s = "arm32v5" then some .arm32v5
  else if s = "arm32v6" then some .arm32v6
  else if s = "arm32v7" then some .arm32v7
  else if s = "arm64v8" then some .arm64v8
  else if s = "windows-amd64" then some .windowsAmd64
  else none

/-- `class Builder(str, Enum)`: docker build backends. Note that in the
source this enum is only ever used as the default and the examples of the
`Build.builder` field, whose type annotation is plain `str`. -/
inductive Builder where
  | buildkit : Builder
  | classicBackend : Builder
  | ociImport : Builder
deriving DecidableEq

/-- The string value of each `Builder` enum member. -/
def Builder.value : Builder → String
  | .buildkit => "buildkit"
  | .classicBackend => "classic"
  | .ociImport => "oci-import"

/-- Validate a raw value as a `str` field. -/
def strVparse : Value → VOut String
  | .str s => .ok s
  | _ => .errs [⟨[], .stringType⟩]

/-- Validate a raw value as an `Optional[str]` field (`None` allowed). -/
def optStrVparse : Value → VOut (Option String)
  | .null => .ok none
  | .str s => .ok (some s)
  | _ => .errs [⟨[], .stringType⟩]

/-- Validate a raw value as an `AnyUrl` field. -/
def urlVparse : Value → VOut String
  | .str s => if isValidUrl s then .ok s else .errs [⟨[], .urlType⟩]
  | _ => .errs [⟨[], .urlType⟩]

/-- Validate a raw value as a `float` field. -/
def numVparse : Value → VOut ℚ
  | .num q => .ok q
  | _ => .errs [⟨[], .floatType⟩]

/-- Validate a raw value as one `Architecture` list element. -/
def archV : Value → VOut Architecture
  | .str s =>
    match archOfString s with
    | some a => .ok a
    | none => .errs [⟨[], .enumMember archValues⟩]
  | _ => .errs [⟨[], .enumMember archValues⟩]

/-- Validate a raw value as one `str` list element. -/
def strV : Value → VOut String
  | .str s => .ok s
  | _ => .errs [⟨[], .stringType⟩]

/-- Validate the elements of a list field, locating errors by index. -/
def elemsF (p : Value → VOut α) : Nat → List Value → VOut (List α)
  | _, [] => .ok []
  | i, v :: vs => (VOut.map List.cons (atLoc (toString i) (p v))).app (elemsF p (i + 1) vs)

/-- Validate the entries of a `dict[str, str]` value. -/
def strPairs : List (String × Value) → VOut (List (String × String))
  | [] => .ok []
  | (k, v) :: rest =>
    (VOut.map List.cons (atLoc k ((strVparse v).map fun s => (k, s)))).app (strPairs rest)

/-- Validate a raw value as an `Optional[dict[str, str]]` payload. -/
def pairsV : Value → VOut (Option (List (String × String)))
  | .null => .ok none
  | .obj l => (strPairs l).map some
  | _ => .errs [⟨[], .dictType⟩]

/-- Required `str` field. -/
def reqStrF (kvs : List (String × Value)) (k : String) : VOut String :=
  match getV kvs k with
  | none => .errs [⟨[k], .missing⟩]
  | some v => atLoc k (strVparse v)

/-- Required `AnyUrl` field. -/
def reqUrlF (kvs : List (String × Value)) (k : String) : VOut String :=
  match getV kvs k with
  | none => .errs [⟨[k], .missing⟩]
  | some v => atLoc k (urlVparse v)

/-- `str` field with a declared default. -/
def defStrF (kvs : List (String × Value)) (k d : String) : VOut String :=
  match getV kvs k with
  | none => .ok d
  | some v => atLoc k (strVparse v)

/-- `Optional[str]` field (default `None`). -/
def optStrF (kvs : List (String × Value)) (k : String) : VOut (Option String) :=
  match getV kvs k with
  | none => .ok none
  | some v => atLoc k (optStrVparse v)

/-- `Optional[dict[str, str]]` field (default `None`). -/
def optDictF (kvs : List (String × Value)) (k : String) :
    VOut (Option (List (String × String))) :=
  match getV kvs k with
  | none => .ok none
  | some v => atLoc k (pairsV v)

/-- Required nested-model field. -/
def reqModelF (kvs : List (String × Value)) (k : String) (p : Value → VOut α) : VOut α :=
  match getV kvs k with
  | none => .errs [⟨[k], .missing⟩]
  | some v => atLoc k (p v)

/-- `class Maintainer(BaseModel)`: build maintainer information. -/
structure Maintainer where
  name : String
  email : String
  github : Option String
  gitlab : Option String
deriving DecidableEq

/-- Allowed keys of the strict `Maintainer` record. -/
def maintainerKeys : List String := ["name", "email", "github", "gitlab"]

/-- Validate a raw value as a `Maintainer` (`extra="forbid"`). -/
def parseMaintainer : Value → VOut Maintainer
  | .obj kvs =>
    ((((VOut.map (fun _ => Maintainer.mk) (extraErrs kvs maintainerKeys)).app
      (reqStrF kvs "name")).app
      (reqStrF kvs "email")).app
      (optStrF kvs "github")).app
      (optStrF kvs "gitlab")
  | _ => .errs [⟨[], .modelType⟩]

/-- `class Git(BaseModel)`: git repository containing the build source. -/
structure Git where
  repo : String
  fetch : String
  sha : Option String
  tag : Option String
deriving DecidableEq

/-- Allowed keys of the strict `Git` record. -/
def gitKeys : List String := ["repo", "fetch", "sha", "tag"]

/-- The per-field validation of `Git`, run only when the `_sanitize_checkout`
pre-validation hook has passed. -/
def gitFieldsF (kvs : List (String × Value)) : VOut Git :=
  ((((VOut.map (fun _ => Git.mk) (extraErrs kvs gitKeys)).app
    (reqUrlF kvs "repo")).app
    (defStrF kvs "fetch" "refs/heads/main")).app
    (optStrF kvs "sha")).app
    (optStrF kvs "tag")

/-- Validate a raw value as a `Git` record. The `model_validator(mode="before")`
hook `_sanitize_checkout` runs first, on the raw value: it calls `data.get`
before any type check, so a non-mapping value raises an `AttributeError`
that pydantic does not convert into a validation error; on a mapping it
raises `ValueError` unless exactly one of `sha`/`tag` is supplied. -/
def parseGit : Value → VOut Git
  | .obj kvs =>
    if (pyGet kvs "sha").isNone && (pyGet kvs "tag").isNone then
      .errs [⟨[], .valueError "Either sha or tag must be provided."⟩]
    else if (pyGet kvs "sha").isSome && (pyGet kvs "tag").isSome then
      .errs [⟨[], .valueError "Only one of sha or tag may be provided."⟩]
    else gitFieldsF kvs
  | _ => .exn "AttributeError: value has no attribute get"

/-- `class Run(BaseModel)`: test information for the image. -/
structure Run where
  cmd : Option String
deriving DecidableEq

/-- Validate a raw value as a `Run` record (no `extra="forbid"`: unknown
keys are silently ignored, the pydantic default). -/
def parseRun : Value → VOut Run
  | .obj kvs => (optStrF kvs "cmd").map Run.mk
  | _ => .errs [⟨[], .modelType⟩]

/-- Validate a raw value as `Optional[Run]`. -/
def optRunVparse : Value → VOut (Option Run)
  | .null => .ok none
  | v => (parseRun v).map some

/-- `class Build(BaseModel)`: build information. Note `builder` is a plain
`str` in the source (the `Builder` enum is only its default and examples). -/
structure Build where
  path : String
  dockerfile : String
  context : String
  builder : String
  platforms : List Architecture
  tags : List String
  args : Option (List (String × String))
  annotations : Option (List (String × String))
  labels : Option (List (String × String))
  target : Option String
  test : Option Run
deriving DecidableEq

/-- Allowed keys of the strict `Build` record. -/
def buildKeys : List String :=
  ["path", "dockerfile", "context", "builder", "platforms", "tags",
   "args", "annotations", "labels", "target", "test"]

/-- Validate a raw value as a `list[Architecture]` payload. -/
def archListVparse : Value → VOut (List Architecture)
  | .arr vs => elemsF archV 0 vs
  | _ => .errs [⟨[], .listType⟩]

/-- Validate a raw value as a `List[str]` payload. -/
def strListVparse : Value → VOut (List String)
  | .arr vs => elemsF strV 0 vs
  | _ => .errs [⟨[], .listType⟩]

/-- `platforms` field: defaults to `[Architecture.AMD64]`. -/
def platformsF (kvs : List (String × Value)) : VOut (List Architecture) :=
  match getV kvs "platforms" with
  | none => .ok [Architecture.amd64]
  | some v => atLoc "platforms" (archListVparse v)

/-- `tags` field: required `List[str]` (no non-emptiness constraint in the
source: `Field(...)` only marks the field required). -/
def tagsF (kvs : List (String × Value)) : VOut (List String) :=
  match getV kvs "tags" with
  | none => .errs [⟨["tags"], .missing⟩]
  | some v => atLoc "tags" (strListVparse v)

/-- `test` field: `Optional[Run]` (default `None`). -/
def testF (kvs : List (String × Value)) : VOut (Option Run) :=
  match getV kvs "test" with
  | none => .ok none
  | some v => atLoc "test" (optRunVparse v)

/-- Validate a raw value as a `Build` record (`extra="forbid"`). -/
def parseBuild : Value → VOut Build
  | .obj kvs =>
    (((((((((((VOut.map (fun _ => Build.mk) (extraErrs kvs buildKeys)).app
      (defStrF kvs "path" ".")).app
      (defStrF kvs "dockerfile" "Dockerfile")).app
      (defStrF kvs "context" ".")).app
      (defStrF kvs "builder" "buildkit")).app
      (platformsF kvs)).app
      (tagsF kvs)).app
      (optDictF kvs "args")).app
      (optDictF kvs "annotations")).app
      (optDictF kvs "labels")).app
      (optStrF kvs "target")).app
      (testF kvs)
  | _ => .errs [⟨[], .modelType⟩]

/-- `class Metadata(BaseModel)`: metadata for the image. -/
structure Metadata where
  identifier : String
  project : String
deriving DecidableEq

/-- Validate a raw value as a `Metadata` record (no `extra="forbid"`:
unknown keys are silently ignored, the pydantic default). -/
def parseMetadata : Value → VOut Metadata
  | .obj kvs =>
    ((VOut.map Metadata.mk (reqStrF kvs "identifier")).app
      (reqStrF kvs "project"))
  | _ => .errs [⟨[], .modelType⟩]

/-- `class Manifest(BaseModel)`: manifest information. Field order follows
the source: `version` (default `0.2`), then the required fields. -/
structure Manifest where
  version : ℚ
  name : String
  maintainers : List Maintainer
  git : Git
  build : Build
  metadata : Metadata
deriving DecidableEq

/-- `version` field: `float` with default `0.2`. -/
def versionF (kvs : List (String × Value)) : VOut ℚ :=
  match getV kvs "version" with
  | none => .ok 0.2
  | some v => atLoc "version" (numVparse v)

/-- `name` field: required `str`. -/
def nameF (kvs : List (String × Value)) : VOut String := reqStrF kvs "name"

/-- Validate a raw value as a `List[Maintainer]` payload. -/
def maintListVparse : Value → VOut (List Maintainer)
  | .arr vs => elemsF parseMaintainer 0 vs
  | _ => .errs [⟨[], .listType⟩]

/-- `maintainers` field: required `List[Maintainer]`. -/
def maintainersF (kvs : List (String × Value)) : VOut (List Maintainer) :=
  match getV kvs "maintainers" with
  | none => .errs [⟨["maintainers"], .missing⟩]
  | some v => atLoc "maintainers" (maintListVparse v)

/-- `git` field: required nested `Git`. -/
def gitF (kvs : List (String × Value)) : VOut Git := reqModelF kvs "git" parseGit

/-- `build` field: required nested `Build`. -/
def buildF (kvs : List (String × Value)) : VOut Build := reqModelF kvs "build" parseBuild

/-- `metadata` field: required nested `Metadata`. -/
def metadataF (kvs : List (String × Value)) : VOut Metadata :=
  reqModelF kvs "metadata" parseMetadata

/-- Parse-and-validate: `Manifest.model_validate` on a raw record. The
`Manifest` model itself has no `extra="forbid"` (pydantic default is
`extra="ignore"`), so no unknown-key check appears at this level. -/
def parseManifest : Value → VOut Manifest
  | .obj kvs =>
    (((((VOut.map Manifest.mk (versionF kvs)).app
      (nameF kvs)).app
      (maintainersF kvs)).app
      (gitF kvs)).app
      (buildF kvs)).app
      (metadataF kvs)
  | _ => .errs [⟨[], .modelType⟩]

/-- Serialize an optional string the way `model_dump` does (`None` → null). -/
def optStrV : Option String → Value
  | none => .null
  | some s => .str s

/-- `Maintainer.model_dump`. -/
def dumpMaintainer (m : Maintainer) : Value :=
  .obj [("name", .str m.name), ("email", .str m.email),
        ("github", optStrV m.github), ("gitlab", optStrV m.gitlab)]

/-- `Git.model_dump`. -/
def dumpGit (g : Git) : Value :=
  .obj [("repo", .str g.repo), ("fetch", .str g.fetch),
        ("sha", optStrV g.sha), ("tag", optStrV g.tag)]

/-- Serialize a `dict[str, str]` payload. -/
def dumpPairs (l : List (String × String)) : Value :=
  .obj (l.map fun p => (p.1, .str p.2))

/-- Serialize an `Optional[dict[str, str]]` field. -/
def optPairsV : Option (List (String × String)) → Value
  | none => .null
  | some l => dumpPairs l

/-- `Run.model_dump`. -/
def dumpRun (r : Run) : Value := .obj [("cmd", optStrV r.cmd)]

/-- Serialize an `Optional[Run]` field. -/
def optRunV : Option Run → Value
  | none => .null
  | some r => dumpRun r

/-- `Build.model_dump` (enum members serialize to their string values). -/
def dumpBuild (b : Build) : Value :=
  .obj [("path", .str b.path), ("dockerfile", .str b.dockerfile),
        ("context", .str b.context), ("builder", .str b.builder),
        ("platforms", .arr (b.platforms.map fun a => .str a.value)),
        ("tags", .arr (b.tags.map Value.str)),
        ("args", optPairsV b.args), ("annotations", optPairsV b.annotations),
        ("labels", optPairsV b.labels), ("target", optStrV b.target),
        ("test", optRunV b.test)]

/-- `Metadata.model_dump`. -/
def dumpMetadata (md : Metadata) : Value :=
  .obj [("identifier", .str md.identifier), ("project", .str md.project)]

/-- `Manifest.model_dump`: serialize a validated manifest back to a raw
record, in field declaration order. -/
def dumpManifest (m : Manifest) : Value :=
  .obj [("version", .num m.version), ("name", .str m.name),
        ("maintainers", .arr (m.maintainers.map dumpMaintainer)),
        ("git", dumpGit m.git), ("build", dumpBuild m.build),
        ("metadata", dumpMetadata m.metadata)]

/-- The cross-field invariant a validated `Git` record satisfies: the repo
URL is valid and exactly one of `sha`/`tag` is set. -/
def gitInv (g : Git) : Bool :=
  isValidUrl g.repo && (g.sha.isSome != g.tag.isSome)

/-- Pydantic `BaseModel` with the default configuration (no `frozen=True`,
no `validate_assignment=True`), as in the source `Git` model: attribute
assignment stores the new value directly, running no validator. -/
def Git.assignSha (g : Git) (s : Option String) : Git :=
  ⟨g.repo, g.fetch, s, g.tag⟩

/-- Pydantic `BaseModel` with the default configuration, as in the source
`Manifest` model: attribute assignment stores the new value directly,
running no validator. -/
def Manifest.assignGit (m : Manifest) (g : Git) : Manifest :=
  ⟨m.version, m.name, m.maintainers, g, m.build, m.metadata⟩

/-- Concrete scenario 1 input record from the specification. -/
def s1rec : Value :=
  .obj [("name", .str "astroml"),
        ("maintainers", .arr [.obj [("name", .str "A B"), ("email", .str "a@b.org")]]),
        ("git", .obj [("repo", .str "https://example.com/r.git"), ("tag", .str "v1.0.0")]),
        ("build", .obj [("tags", .arr [.str "latest"])]),
        ("metadata", .obj [("identifier", .str "x1"), ("project", .str "srcnet")])]

/-- The manifest that scenario 1 validates to (all defaults applied). -/
def m1 : Manifest :=
  ⟨0.2, "astroml", [⟨"A B", "a@b.org", none, none⟩],
   ⟨"https://example.com/r.git", "refs/heads/main", none, some "v1.0.0"⟩,
   ⟨".", "Dockerfile", ".", "buildkit", [.amd64], ["latest"],
    none, none, none, none, none⟩,
   ⟨"x1", "srcnet"⟩⟩

/-! ### Lemmas about the outcome combinators -/

lemma VOut.isExn_ok (a : α) : (VOut.ok a).isExn = false := rfl

lemma VOut.isExn_errs (e : List VErr) : (VOut.errs e : VOut α).isExn = false := rfl

lemma VOut.app_isExn (f : VOut (α → β)) (x : VOut α) :
    (f.app x).isExn = (f.isExn || x.isExn) := by
  cases f <;> cases x <;> rfl

lemma VOut.map_isExn (f : α → β) (x : VOut α) : (VOut.map f x).isExn = x.isExn := by
  cases x <;> rfl

lemma atLoc_isExn (l : String) (x : VOut α) : (atLoc l x).isExn = x.isExn := by
  cases x <;> rfl

lemma VOut.errsOf_ok (a : α) : (VOut.ok a).errsOf = [] := rfl

lemma VOut.map_errsOf (f : α → β) (x : VOut α) : (VOut.map f x).errsOf = x.errsOf := by
  cases x <;> rfl

lemma atLoc_errsOf (l : String) (x : VOut α) :
    (atLoc l x).errsOf = x.errsOf.map (fun er => ⟨l :: er.loc, er.kind⟩) := by
  cases x <;> rfl

lemma VOut.app_errsOf (f : VOut (α → β)) (x : VOut α)
    (hf : f.isExn = false) (hx : x.isExn = false) :
    (f.app x).errsOf = f.errsOf ++ x.errsOf := by
  cases f <;> cases x <;> simp_all [VOut.app, VOut.errsOf, VOut.isExn]

lemma VOut.eq_errs_self (x : VOut α) (hx : x.isExn = false) (hne : x.errsOf ≠ []) :
    x = .errs x.errsOf := by
  cases x <;> simp_all [VOut.errsOf, VOut.isExn]

lemma VOut.errsOf_eq_nil_of_ok (x : VOut α) (a : α) (h : x = .ok a) : x.errsOf = [] := by
  subst h; rfl

lemma VOut.app_eq_ok (f : VOut (α → β)) (x : VOut α) (b : β) (h : f.app x = .ok b) :
    ∃ g a, f = .ok g ∧ x = .ok a ∧ g a = b := by
  cases f <;> cases x <;> simp [VOut.app] at h
  case ok.ok g a => exact ⟨g, a, rfl, rfl, h⟩

lemma VOut.map_eq_ok (f : α → β) (x : VOut α) (b : β) (h : VOut.map f x = .ok b) :
    ∃ a, x = .ok a ∧ f a = b := by
  cases x <;> simp [VOut.map] at h
  case ok a => exact ⟨a, rfl, h⟩

lemma atLoc_eq_ok (l : String) (x : VOut α) (a : α) (h : atLoc l x = .ok a) :
    x = .ok a := by
  cases x <;> simp [atLoc] at h ⊢; exact h

/-! ### No validator of this schema other than `Git`'s pre-validation hook
can raise an exception that escapes; within a mapping, nothing raises. -/

lemma strVparse_noExn (v : Value) : (strVparse v).isExn = false := by
  cases v <;> rfl

lemma optStrVparse_noExn (v : Value) : (optStrVparse v).isExn = false := by
  cases v <;> rfl

lemma urlVparse_noExn (v : Value) : (urlVparse v).isExn = false := by
  cases v <;> simp only [urlVparse] <;> first | rfl | (split <;> rfl)

lemma numVparse_noExn (v : Value) : (numVparse v).isExn = false := by
  cases v <;> rfl

lemma archV_noExn (v : Value) : (archV v).isExn = false := by
  cases v <;> simp only [archV] <;> first | rfl | (split <;> rfl)

lemma strV_noExn (v : Value) : (strV v).isExn = false := by
  cases v <;> rfl

lemma extraErrs_noExn (kvs : List (String × Value)) (allowed : List String) :
    (extraErrs kvs allowed).isExn = false := by
  unfold extraErrs; split <;> rfl

lemma elemsF_noExn (p : Value → VOut α) (hp : ∀ v, (p v).isExn = false) :
    ∀ (i : Nat) (vs : List Value), (elemsF p i vs).isExn = false := by
  intro i vs
  induction vs generalizing i with
  | nil => rfl
  | cons v rest ih =>
    simp [elemsF, VOut.app_isExn, VOut.map_isExn, atLoc_isExn, hp, ih]

lemma strPairs_noExn (l : List (String × Value)) : (strPairs l).isExn = false := by
  induction l with
  | nil => rfl
  | cons p rest ih =>
    obtain ⟨k, v⟩ := p
    simp [strPairs, VOut.app_isExn, VOut.map_isExn, atLoc_isExn, strVparse_noExn, ih]

lemma pairsV_noExn (v : Value) : (pairsV v).isExn = false := by
  cases v <;> simp [pairsV, VOut.map_isExn, strPairs_noExn] <;> rfl

lemma reqStrF_noExn (kvs : List (String × Value)) (k : String) :
    (reqStrF kvs k).isExn = false := by
  unfold reqStrF; split
  · rfl
  · rw [atLoc_isExn]; exact strVparse_noExn _

lemma reqUrlF_noExn (kvs : List (String × Value)) (k : String) :
    (reqUrlF kvs k).isExn = false := by
  unfold reqUrlF; split
  · rfl
  · rw [atLoc_isExn]; exact urlVparse_noExn _

lemma defStrF_noExn (kvs : List (String × Value)) (k d : String) :
    (defStrF kvs k d).isExn = false := by
  unfold defStrF; split
  · rfl
  · rw [atLoc_isExn]; exact strVparse_noExn _

lemma optStrF_noExn (kvs : List (String × Value)) (k : String) :
    (optStrF kvs k).isExn = false := by
  unfold optStrF; split
  · rfl
  · rw [atLoc_isExn]; exact optStrVparse_noExn _

lemma optDictF_noExn (kvs : List (String × Value)) (k : String) :
    (optDictF kvs k).isExn = false := by
  unfold optDictF; split
  · rfl
  · rw [atLoc_isExn]; exact pairsV_noExn _

lemma parseMaintainer_noExn (v : Value) : (parseMaintainer v).isExn = false := by
  cases v <;>
    simp [parseMaintainer, VOut.app_isExn, VOut.map_isExn, extraErrs_noExn,
      reqStrF_noExn, optStrF_noExn] <;> rfl

lemma parseRun_noExn (v : Value) : (parseRun v).isExn = false := by
  cases v <;> simp [parseRun, VOut.map_isExn, optStrF_noExn] <;> rfl

lemma optRunVparse_noExn (v : Value) : (optRunVparse v).isExn = false := by
  cases v <;> simp only [optRunVparse, VOut.map_isExn, parseRun_noExn, VOut.isExn_ok]

lemma archListVparse_noExn (v : Value) : (archListVparse v).isExn = false := by
  cases v <;> simp [archListVparse, elemsF_noExn archV archV_noExn] <;> rfl

lemma strListVparse_noExn (v : Value) : (strListVparse v).isExn = false := by
  cases v <;> simp [strListVparse, elemsF_noExn strV strV_noExn] <;> rfl

lemma platformsF_noExn (kvs : List (String × Value)) : (platformsF kvs).isExn = false := by
  unfold platformsF; split
  · rfl
  · rw [atLoc_isExn]; exact archListVparse_noExn _

lemma tagsF_noExn (kvs : List (String × Value)) : (tagsF kvs).isExn = false := by
  unfold tagsF; split
  · rfl
  · rw [atLoc_isExn]; exact strListVparse_noExn _

lemma testF_noExn (kvs : List (String × Value)) : (testF kvs).isExn = false := by
  unfold testF; split
  · rfl
  · rw [atLoc_isExn]; exact optRunVparse_noExn _

lemma parseBuild_noExn (v : Value) : (parseBuild v).isExn = false := by
  cases v <;>
    simp [parseBuild, VOut.app_isExn, VOut.map_isExn, extraErrs_noExn, defStrF_noExn,
      platformsF_noExn, tagsF_noExn, optDictF_noExn, optStrF_noExn, testF_noExn] <;> rfl

lemma parseMetadata_noExn (v : Value) : (parseMetadata v).isExn = false := by
  cases v <;> simp [parseMetadata, VOut.app_isExn, VOut.map_isExn, reqStrF_noExn] <;> rfl

lemma gitFieldsF_noExn (kvs : List (String × Value)) : (gitFieldsF kvs).isExn = false := by
  simp [gitFieldsF, VOut.app_isExn, VOut.map_isExn, extraErrs_noExn, reqUrlF_noExn,
    defStrF_noExn, optStrF_noExn]

lemma parseGit_obj_noExn (kvs : List (String × Value)) :
    (parseGit (.obj kvs)).isExn = false := by
  simp only [parseGit]
  split
  · rfl
  · split
    · rfl
    · exact gitFieldsF_noExn kvs

/-- The raw `git` value of the record, when present, is a mapping — the
shape under which `Git._sanitize_checkout` does not raise `AttributeError`. -/
def gitShapeOk (kvs : List (String × Value)) : Prop :=
  ∀ v, getV kvs "git" = some v → ∃ l, v = .obj l

lemma versionF_noExn (kvs : List (String × Value)) : (versionF kvs).isExn = false := by
  unfold versionF; split
  · rfl
  · rw [atLoc_isExn]; exact numVparse_noExn _

lemma maintListVparse_noExn (v : Value) : (maintListVparse v).isExn = false := by
  cases v <;> simp [maintListVparse, elemsF_noExn parseMaintainer parseMaintainer_noExn] <;> rfl

lemma maintainersF_noExn (kvs : List (String × Value)) :
    (maintainersF kvs).isExn = false := by
  unfold maintainersF; split
  · rfl
  · rw [atLoc_isExn]; exact maintListVparse_noExn _

lemma gitF_noExn (kvs : List (String × Value)) (hg : gitShapeOk kvs) :
    (gitF kvs).isExn = false := by
  unfold gitF reqModelF; split
  · rfl
  · next v hv =>
    obtain ⟨l, rfl⟩ := hg v hv
    rw [atLoc_isExn]; exact parseGit_obj_noExn l

lemma buildF_noExn (kvs : List (String × Value)) : (buildF kvs).isExn = false := by
  unfold buildF reqModelF; split
  · rfl
  · rw [atLoc_isExn]; exact parseBuild_noExn _

lemma metadataF_noExn (kvs : List (String × Value)) : (metadataF kvs).isExn = false := by
  unfold metadataF reqModelF; split
  · rfl
  · rw [atLoc_isExn]; exact parseMetadata_noExn _

/-! ### Serialize–revalidate round trips per model -/

lemma archOfString_value (a : Architecture) : archOfString a.value = some a := by
  cases a <;> rfl

lemma archV_value (a : Architecture) : archV (.str a.value) = .ok a := by
  cases a <;> rfl

lemma elemsF_map_ok (p : Value → VOut α) (f : α → Value) (hp : ∀ a, p (f a) = .ok a) :
    ∀ (i : Nat) (l : List α), elemsF p i (l.map f) = .ok l := by
  intro i l
  induction l generalizing i with
  | nil => rfl
  | cons a rest ih =>
    simp [elemsF, hp, ih, atLoc, VOut.map, VOut.app]

lemma elemsF_arch_dump (i : Nat) (l : List Architecture) :
    elemsF archV i (l.map fun a => Value.str a.value) = .ok l :=
  elemsF_map_ok archV _ archV_value i l

lemma elemsF_str_dump (i : Nat) (l : List String) :
    elemsF strV i (l.map Value.str) = .ok l :=
  elemsF_map_ok strV Value.str (fun _ => rfl) i l

lemma optStrVparse_optStrV (o : Option String) : optStrVparse (optStrV o) = .ok o := by
  cases o <;> rfl

lemma strPairs_dump (l : List (String × String)) :
    strPairs (l.map fun p => (p.1, Value.str p.2)) = .ok l := by
  induction l with
  | nil => rfl
  | cons p rest ih =>
    simp [strPairs, strVparse, atLoc, VOut.map, VOut.app, ih]

lemma pairsV_optPairsV (o : Option (List (String × String))) :
    pairsV (optPairsV o) = .ok o := by
  cases o with
  | none => rfl
  | some l => simp [optPairsV, dumpPairs, pairsV, strPairs_dump, VOut.map]

lemma parseRun_dumpRun (r : Run) : parseRun (dumpRun r) = .ok r := by
  obtain ⟨cmd⟩ := r; cases cmd <;> rfl

lemma optRunVparse_optRunV (o : Option Run) : optRunVparse (optRunV o) = .ok o := by
  cases o with
  | none => rfl
  | some r => obtain ⟨cmd⟩ := r; cases cmd <;> rfl

lemma parseMaintainer_dump (mt : Maintainer) :
    parseMaintainer (dumpMaintainer mt) = .ok mt := by
  obtain ⟨n, e, gh, gl⟩ := mt; cases gh <;> cases gl <;> rfl

lemma elemsF_maint_dump (i : Nat) (l : List Maintainer) :
    elemsF parseMaintainer i (l.map dumpMaintainer) = .ok l :=
  elemsF_map_ok parseMaintainer dumpMaintainer parseMaintainer_dump i l

lemma parseMetadata_dump (md : Metadata) : parseMetadata (dumpMetadata md) = .ok md := rfl

lemma parseBuild_dump (b : Build) : parseBuild (dumpBuild b) = .ok b := by
  simp [parseBuild, dumpBuild, getV, extraErrs, keyIn, defStrF, platformsF, tagsF,
    optDictF, optStrF, testF, strVparse, archListVparse, strListVparse,
    elemsF_arch_dump, elemsF_str_dump, pairsV_optPairsV, optStrVparse_optStrV,
    optRunVparse_optRunV, atLoc, VOut.app, VOut.map]

lemma parseGit_dump (g : Git) (hinv : gitInv g = true) : parseGit (dumpGit g) = .ok g := by
  obtain ⟨repo, fetch, sha, tag⟩ := g
  simp only [gitInv, Bool.and_eq_true, bne_iff_ne] at hinv
  obtain ⟨hurl, hxor⟩ := hinv
  rcases sha with _ | s <;> rcases tag with _ | t
  · simp at hxor
  · simp [parseGit, dumpGit, pyGet, getV, optStrV, gitFieldsF, extraErrs, keyIn,
      reqUrlF, urlVparse, hurl, defStrF, strVparse, optStrF, optStrVparse, atLoc,
      VOut.app, VOut.map]
  · simp [parseGit, dumpGit, pyGet, getV, optStrV, gitFieldsF, extraErrs, keyIn,
      reqUrlF, urlVparse, hurl, defStrF, strVparse, optStrF, optStrVparse, atLoc,
      VOut.app, VOut.map]
  · simp at hxor

lemma parseManifest_dump (m : Manifest) (hinv : gitInv m.git = true) :
    parseManifest (dumpManifest m) = .ok m := by
  simp [parseManifest, dumpManifest, versionF, nameF, maintainersF, gitF, buildF,
    metadataF, reqModelF, reqStrF, getV, numVparse, strVparse, maintListVparse,
    elemsF_maint_dump, parseGit_dump m.git hinv, parseBuild_dump, parseMetadata_dump,
    atLoc, VOut.app, VOut.map]

/-! ### Inversion: what success of validation implies about the input -/

lemma strVparse_eq_ok (v : Value) (s : String) (h : strVparse v = .ok s) :
    v = .str s := by
  cases v <;> simp [strVparse] at h
  rw [h]

lemma reqStrF_ok_getV (kvs : List (String × Value)) (k s : String)
    (h : reqStrF kvs k = .ok s) : getV kvs k = some (.str s) := by
  unfold reqStrF at h
  split at h
  · simp at h
  · next v hv => rw [hv, strVparse_eq_ok v s (atLoc_eq_ok _ _ _ h)]

lemma urlVparse_ok_valid (v : Value) (r : String) (h : urlVparse v = .ok r) :
    isValidUrl r = true := by
  cases v with
  | str s =>
    simp only [urlVparse] at h
    split at h
    · next hu => injection h with h2; rw [← h2]; exact hu
    · simp at h
  | null => simp [urlVparse] at h
  | num q => simp [urlVparse] at h
  | bool b => simp [urlVparse] at h
  | arr l => simp [urlVparse] at h
  | obj o => simp [urlVparse] at h

lemma reqUrlF_ok_valid (kvs : List (String × Value)) (k r : String)
    (h : reqUrlF kvs k = .ok r) : isValidUrl r = true := by
  unfold reqUrlF at h
  split at h
  · simp at h
  · exact urlVparse_ok_valid _ _ (atLoc_eq_ok _ _ _ h)

lemma optStrF_ok_isSome (kvs : List (String × Value)) (k : String) (o : Option String)
    (h : optStrF kvs k = .ok o) : o.isSome = (pyGet kvs k).isSome := by
  unfold optStrF at h
  split at h
  · next hv => simp at h; simp [pyGet, hv, ← h]
  · next v hv =>
    have h2 := atLoc_eq_ok _ _ _ h
    cases v <;> simp [optStrVparse] at h2 <;> simp [pyGet, hv, ← h2]

lemma gitFieldsF_ok_inv (kvs : List (String × Value)) (g : Git)
    (h : gitFieldsF kvs = .ok g) :
    isValidUrl g.repo = true ∧ g.sha.isSome = (pyGet kvs "sha").isSome ∧
      g.tag.isSome = (pyGet kvs "tag").isSome := by
  unfold gitFieldsF at h
  obtain ⟨f4, tagv, hf4, htag, hmk4⟩ := VOut.app_eq_ok _ _ _ h
  obtain ⟨f3, shav, hf3, hsha, hmk3⟩ := VOut.app_eq_ok _ _ _ hf4
  obtain ⟨f2, fetchv, hf2, hfetch, hmk2⟩ := VOut.app_eq_ok _ _ _ hf3
  obtain ⟨f1, repov, hf1, hrepo, hmk1⟩ := VOut.app_eq_ok _ _ _ hf2
  obtain ⟨u, hu, hmk0⟩ := VOut.map_eq_ok _ _ _ hf1
  subst hmk0 hmk1 hmk2 hmk3
  rw [← hmk4]
  exact ⟨reqUrlF_ok_valid kvs "repo" repov hrepo,
    optStrF_ok_isSome kvs "sha" shav hsha,
    optStrF_ok_isSome kvs "tag" tagv htag⟩

lemma parseGit_ok_inv (v : Value) (g : Git) (h : parseGit v = .ok g) :
    gitInv g = true := by
  cases v <;> simp [parseGit] at h
  next kvs =>
  split at h
  · simp at h
  · split at h
    · simp at h
    · next hc1 hc2 =>
      obtain ⟨hurl, hsha, htag⟩ := gitFieldsF_ok_inv kvs g h
      simp only [gitInv, Bool.and_eq_true, bne_iff_ne]
      refine ⟨hurl, ?_⟩
      rw [hsha, htag]
      clear h hsha htag hurl
      cases hps : pyGet kvs "sha" <;> cases hpt : pyGet kvs "tag" <;> simp_all

lemma reqModelF_ok_getV (kvs : List (String × Value)) (k : String)
    (p : Value → VOut α) (a : α) (h : reqModelF kvs k p = .ok a) :
    ∃ v, getV kvs k = some v ∧ p v = .ok a := by
  unfold reqModelF at h
  split at h
  · simp at h
  · next v hv => exact ⟨v, hv, atLoc_eq_ok _ _ _ h⟩

lemma maintainersF_ok_getV (kvs : List (String × Value)) (l : List Maintainer)
    (h : maintainersF kvs = .ok l) : ∃ v, getV kvs "maintainers" = some v := by
  unfold maintainersF at h
  split at h
  · simp at h
  · next v hv => exact ⟨v, hv⟩

lemma parseManifest_ok_inv (kvs : List (String × Value)) (m : Manifest)
    (h : parseManifest (.obj kvs) = .ok m) :
    ∃ gv, getV kvs "git" = some gv ∧ parseGit gv = .ok m.git := by
  simp only [parseManifest] at h
  obtain ⟨f5, mdv, hf5, hmd, hmk5⟩ := VOut.app_eq_ok _ _ _ h
  obtain ⟨f4, blv, hf4, hbl, hmk4⟩ := VOut.app_eq_ok _ _ _ hf5
  obtain ⟨f3, gv, hf3, hgit, hmk3⟩ := VOut.app_eq_ok _ _ _ hf4
  obtain ⟨f2, mts, hf2, hmts, hmk2⟩ := VOut.app_eq_ok _ _ _ hf3
  obtain ⟨f1, nm, hf1, hnm, hmk1⟩ := VOut.app_eq_ok _ _ _ hf2
  obtain ⟨ver, hver, hmk0⟩ := VOut.map_eq_ok _ _ _ hf1
  subst hmk0 hmk1 hmk2 hmk3 hmk4
  obtain ⟨v, hv, hp⟩ := reqModelF_ok_getV kvs "git" parseGit gv hgit
  refine ⟨v, hv, ?_⟩
  rw [← hmk5]
  exact hp

/-! ### Tracking one error through the accumulating field combination -/

lemma VOut.app_mem_left (er : VErr) (f : VOut (α → β)) (x : VOut α)
    (hx : x.isExn = false) (h : er ∈ f.errsOf) : er ∈ (f.app x).errsOf := by
  cases f <;> cases x <;> simp_all [VOut.app, VOut.errsOf, VOut.isExn]

lemma VOut.app_mem_right (er : VErr) (f : VOut (α → β)) (x : VOut α)
    (hf : f.isExn = false) (h : er ∈ x.errsOf) : er ∈ (f.app x).errsOf := by
  cases f <;> cases x <;> simp_all [VOut.app, VOut.errsOf, VOut.isExn]

lemma VOut.map_mem (er : VErr) (f : α → β) (x : VOut α) (h : er ∈ x.errsOf) :
    er ∈ (VOut.map f x).errsOf := by
  cases x <;> simp_all [VOut.map, VOut.errsOf]

lemma atLoc_mem (l : String) (er : VErr) (x : VOut α) (h : er ∈ x.errsOf) :
    VErr.mk (l :: er.loc) er.kind ∈ (atLoc l x).errsOf := by
  cases x <;> simp_all [atLoc, VOut.errsOf]
  exact ⟨er, h, rfl, rfl⟩

lemma mem_errs_result (x : VOut α) (er : VErr) (hx : x.isExn = false)
    (h : er ∈ x.errsOf) :
    x = .errs x.errsOf ∧ er ∈ x.errsOf ∧ ∀ a, x ≠ .ok a := by
  have hne : x.errsOf ≠ [] := by
    intro he; rw [he] at h; exact absurd h (List.not_mem_nil er)
  refine ⟨VOut.eq_errs_self x hx hne, h, ?_⟩
  intro a hxa
  rw [VOut.errsOf_eq_nil_of_ok x a hxa] at hne
  exact hne rfl

lemma parseManifest_obj_noExn (kvs : List (String × Value)) (hg : gitShapeOk kvs) :
    (parseManifest (.obj kvs)).isExn = false := by
  simp [parseManifest, VOut.app_isExn, VOut.map_isExn, versionF_noExn, nameF,
    reqStrF_noExn, maintainersF_noExn, gitF_noExn kvs hg, buildF_noExn, metadataF_noExn]

lemma parseManifest_obj_mem (kvs : List (String × Value)) (er : VErr)
    (hg : gitShapeOk kvs)
    (h : er ∈ (versionF kvs).errsOf ∨ er ∈ (nameF kvs).errsOf ∨
      er ∈ (maintainersF kvs).errsOf ∨ er ∈ (gitF kvs).errsOf ∨
      er ∈ (buildF kvs).errsOf ∨ er ∈ (metadataF kvs).errsOf) :
    er ∈ (parseManifest (.obj kvs)).errsOf := by
  have h0 : (VOut.map Manifest.mk (versionF kvs)).isExn = false := by
    rw [VOut.map_isExn]; exact versionF_noExn kvs
  have h1 : ((VOut.map Manifest.mk (versionF kvs)).app (nameF kvs)).isExn = false := by
    rw [VOut.app_isExn, h0, nameF, reqStrF_noExn]; rfl
  have h2 : (((VOut.map Manifest.mk (versionF kvs)).app (nameF kvs)).app
      (maintainersF kvs)).isExn = false := by
    rw [VOut.app_isExn, h1, maintainersF_noExn]; rfl
  have h3 : ((((VOut.map Manifest.mk (versionF kvs)).app (nameF kvs)).app
      (maintainersF kvs)).app (gitF kvs)).isExn = false := by
    rw [VOut.app_isExn, h2, gitF_noExn kvs hg]; rfl
  have h4 : (((((VOut.map Manifest.mk (versionF kvs)).app (nameF kvs)).app
      (maintainersF kvs)).app (gitF kvs)).app (buildF kvs)).isExn = false := by
    rw [VOut.app_isExn, h3, buildF_noExn]; rfl
  simp only [parseManifest]
  rcases h with h | h | h | h | h | h
  · exact VOut.app_mem_left _ _ _ (metadataF_noExn kvs)
      (VOut.app_mem_left _ _ _ (buildF_noExn kvs)
        (VOut.app_mem_left _ _ _ (gitF_noExn kvs hg)
          (VOut.app_mem_left _ _ _ (maintainersF_noExn kvs)
            (VOut.app_mem_left _ _ _ (by rw [nameF]; exact reqStrF_noExn kvs "name")
              (VOut.map_mem _ _ _ h)))))
  · exact VOut.app_mem_left _ _ _ (metadataF_noExn kvs)
      (VOut.app_mem_left _ _ _ (buildF_noExn kvs)
        (VOut.app_mem_left _ _ _ (gitF_noExn kvs hg)
          (VOut.app_mem_left _ _ _ (maintainersF_noExn kvs)
            (VOut.app_mem_right _ _ _ h0 h))))
  · exact VOut.app_mem_left _ _ _ (metadataF_noExn kvs)
      (VOut.app_mem_left _ _ _ (buildF_noExn kvs)
        (VOut.app_mem_left _ _ _ (gitF_noExn kvs hg)
          (VOut.app_mem_right _ _ _ h1 h)))
  · exact VOut.app_mem_left _ _ _ (metadataF_noExn kvs)
      (VOut.app_mem_left _ _ _ (buildF_noExn kvs)
        (VOut.app_mem_right _ _ _ h2 h))
  · exact VOut.app_mem_left _ _ _ (metadataF_noExn kvs)
      (VOut.app_mem_right _ _ _ h3 h)
  · exact VOut.app_mem_right _ _ _ h4 h

lemma parseBuild_mem_tags (kvs : List (String × Value)) (er : VErr)
    (h : er ∈ (tagsF kvs).errsOf) : er ∈ (parseBuild (.obj kvs)).errsOf := by
  have hc : ((((((VOut.map (fun _ => Build.mk) (extraErrs kvs buildKeys)).app
      (defStrF kvs "path" ".")).app
      (defStrF kvs "dockerfile" "Dockerfile")).app
      (defStrF kvs "context" ".")).app
      (defStrF kvs "builder" "buildkit")).app
      (platformsF kvs)).isExn = false := by
    simp [VOut.app_isExn, VOut.map_isExn, extraErrs_noExn, defStrF_noExn, platformsF_noExn]
  simp only [parseBuild]
  exact VOut.app_mem_left _ _ _ (testF_noExn kvs)
    (VOut.app_mem_left _ _ _ (optStrF_noExn kvs "target")
      (VOut.app_mem_left _ _ _ (optDictF_noExn kvs "labels")
        (VOut.app_mem_left _ _ _ (optDictF_noExn kvs "annotations")
          (VOut.app_mem_left _ _ _ (optDictF_noExn kvs "args")
            (VOut.app_mem_right _ _ _ hc h)))))

lemma gitFieldsF_mem_repo (kvs : List (String × Value)) (er : VErr)
    (h : er ∈ (reqUrlF kvs "repo").errsOf) : er ∈ (gitFieldsF kvs).errsOf := by
  have h0 : (VOut.map (fun _ => Git.mk) (extraErrs kvs gitKeys)).isExn = false := by
    rw [VOut.map_isExn]; exact extraErrs_noExn kvs gitKeys
  simp only [gitFieldsF]
  exact VOut.app_mem_left _ _ _ (optStrF_noExn kvs "tag")
    (VOut.app_mem_left _ _ _ (optStrF_noExn kvs "sha")
      (VOut.app_mem_left _ _ _ (defStrF_noExn kvs "fetch" "refs/heads/main")
        (VOut.app_mem_right _ _ _ h0 h)))

lemma parseMetadata_mem (kvs : List (String × Value)) (er : VErr)
    (h : er ∈ (reqStrF kvs "identifier").errsOf ∨ er ∈ (reqStrF kvs "project").errsOf) :
    er ∈ (parseMetadata (.obj kvs)).errsOf := by
  simp only [parseMetadata]
  rcases h with h | h
  · exact VOut.app_mem_left _ _ _ (reqStrF_noExn kvs "project") (VOut.map_mem _ _ _ h)
  · exact VOut.app_mem_right _ _ _
      (by rw [VOut.map_isExn]; exact reqStrF_noExn kvs "identifier") h

/-! ### Concrete records for the specification scenarios -/

/-- A git record supplying `repo` plus optional `sha`/`tag` (absent
fields serialized as null, which `dict.get` treats as absent). -/
def gitRec (repo : String) (sha tag : Option String) : Value :=
  .obj [("repo", .str repo), ("sha", optStrV sha), ("tag", optStrV tag)]

/-- The closed builder-backend domain, from the `Builder` enum. -/
def builderValues : List String :=
  [Builder.buildkit.value, Builder.classicBackend.value, Builder.ociImport.value]

/-- Scenario 1 with an extra top-level key `owner` (scenario 5). -/
def s1recOwner : Value :=
  .obj [("name", .str "astroml"),
        ("maintainers", .arr [.obj [("name", .str "A B"), ("email", .str "a@b.org")]]),
        ("git", .obj [("repo", .str "https://example.com/r.git"), ("tag", .str "v1.0.0")]),
        ("build", .obj [("tags", .arr [.str "latest"])]),
        ("metadata", .obj [("identifier", .str "x1"), ("project", .str "srcnet")]),
        ("owner", .str "team-x")]

/-- Scenario 3: scenario 1 with `build.tags = []`. -/
def s3rec : Value :=
  .obj [("name", .str "astroml"),
        ("maintainers", .arr [.obj [("name", .str "A B"), ("email", .str "a@b.org")]]),
        ("git", .obj [("repo", .str "https://example.com/r.git"), ("tag", .str "v1.0.0")]),
        ("build", .obj [("tags", .arr [])]),
        ("metadata", .obj [("identifier", .str "x1"), ("project", .str "srcnet")])]

/-- The manifest scenario 3 actually validates to (empty tags accepted). -/
def mET : Manifest :=
  ⟨0.2, "astroml", [⟨"A B", "a@b.org", none, none⟩],
   ⟨"https://example.com/r.git", "refs/heads/main", none, some "v1.0.0"⟩,
   ⟨".", "Dockerfile", ".", "buildkit", [.amd64], [],
    none, none, none, none, none⟩,
   ⟨"x1", "srcnet"⟩⟩

/-- Scenario 1 with an empty `maintainers` list. -/
def sEMrec : Value :=
  .obj [("name", .str "astroml"),
        ("maintainers", .arr []),
        ("git", .obj [("repo", .str "https://example.com/r.git"), ("tag", .str "v1.0.0")]),
        ("build", .obj [("tags", .arr [.str "latest"])]),
        ("metadata", .obj [("identifier", .str "x1"), ("project", .str "srcnet")])]

/-- The manifest the empty-maintainers record validates to. -/
def mEM : Manifest :=
  ⟨0.2, "astroml", [],
   ⟨"https://example.com/r.git", "refs/heads/main", none, some "v1.0.0"⟩,
   ⟨".", "Dockerfile", ".", "buildkit", [.amd64], ["latest"],
    none, none, none, none, none⟩,
   ⟨"x1", "srcnet"⟩⟩

/-- Scenario 4: scenario 1 with `build.builder = "docker-legacy"`. -/
def s4rec : Value :=
  .obj [("name", .str "astroml"),
        ("maintainers", .arr [.obj [("name", .str "A B"), ("email", .str "a@b.org")]]),
        ("git", .obj [("repo", .str "https://example.com/r.git"), ("tag", .str "v1.0.0")]),
        ("build", .obj [("tags", .arr [.str "latest"]), ("builder", .str "docker-legacy")]),
        ("metadata", .obj [("identifier", .str "x1"), ("project", .str "srcnet")])]

/-- The manifest scenario 4 actually validates to. -/
def m4 : Manifest :=
  ⟨0.2, "astroml", [⟨"A B", "a@b.org", none, none⟩],
   ⟨"https://example.com/r.git", "refs/heads/main", none, some "v1.0.0"⟩,
   ⟨".", "Dockerfile", ".", "docker-legacy", [.amd64], ["latest"],
    none, none, none, none, none⟩,
   ⟨"x1", "srcnet"⟩⟩

/-- Scenario 1 with the `git` value a plain string instead of a mapping. -/
def gitStrRec : Value :=
  .obj [("name", .str "astroml"),
        ("maintainers", .arr [.obj [("name", .str "A B"), ("email", .str "a@b.org")]]),
        ("git", .str "https://example.com/r.git"),
        ("build", .obj [("tags", .arr [.str "latest"])]),
        ("metadata", .obj [("identifier", .str "x1"), ("project", .str "srcnet")])]

/-! ### Claim theorems -/

/-- C1: for git records in the extended variant, supplying both `sha` and
`tag` fails validation with the cross-field `ValueError`, supplying neither
also fails, and supplying exactly one (with all other constraints holding)
validates the git record successfully. -/
theorem git_crossfield_spec :
    (∀ kvs : List (String × Value), pyGet kvs "sha" = none → pyGet kvs "tag" = none →
      parseGit (.obj kvs) =
        .errs [⟨[], .valueError "Either sha or tag must be provided."⟩]) ∧
    (∀ (kvs : List (String × Value)) (s t : Value), pyGet kvs "sha" = some s →
      pyGet kvs "tag" = some t →
      parseGit (.obj kvs) =
        .errs [⟨[], .valueError "Only one of sha or tag may be provided."⟩]) ∧
    (∀ (repo : String) (sha tag : Option String), isValidUrl repo = true →
      sha.isSome ≠ tag.isSome →
      parseGit (gitRec repo sha tag) = .ok ⟨repo, "refs/heads/main", sha, tag⟩) := by
  refine ⟨?_, ?_, ?_⟩
  · intro kvs h1 h2
    simp [parseGit, h1, h2]
  · intro kvs s t h1 h2
    simp [parseGit, h1, h2]
  · intro repo sha tag hurl hx
    rcases sha with _ | s <;> rcases tag with _ | t
    · simp at hx
    · simp [gitRec, parseGit, pyGet, getV, optStrV, gitFieldsF, extraErrs, keyIn,
        reqUrlF, urlVparse, hurl, defStrF, optStrF, optStrVparse, atLoc,
        VOut.app, VOut.map]
    · simp [gitRec, parseGit, pyGet, getV, optStrV, gitFieldsF, extraErrs, keyIn,
        reqUrlF, urlVparse, hurl, defStrF, optStrF, optStrVparse, atLoc,
        VOut.app, VOut.map]
    · simp at hx

/-- C1 witness: the three branches at concrete inputs. -/
theorem git_crossfield_spec_witness :
    parseGit (.obj []) = .errs [⟨[], .valueError "Either sha or tag must be provided."⟩] ∧
    parseGit (.obj [("sha", .str "abc123"), ("tag", .str "v1.0.0")]) =
      .errs [⟨[], .valueError "Only one of sha or tag may be provided."⟩] ∧
    parseGit (gitRec "https://example.com/r.git" none (some "v1.0.0")) =
      .ok ⟨"https://example.com/r.git", "refs/heads/main", none, some "v1.0.0"⟩ :=
  ⟨git_crossfield_spec.1 [] rfl rfl,
   git_crossfield_spec.2.1 _ (.str "abc123") (.str "v1.0.0") rfl rfl,
   git_crossfield_spec.2.2 "https://example.com/r.git" none (some "v1.0.0")
     (by decide) (by decide)⟩

/-- C2: the claim says a `build.builder` value outside
{buildkit, classic, oci-import} is rejected with an enum violation, but the
source annotates the field as plain `str` (the `Builder` enum is only its
default and examples), so scenario 4 with `builder = "docker-legacy"` — a
value outside the enum — validates successfully to a `Manifest`. -/
theorem builder_enum_code_bug :
    parseManifest s4rec = .ok m4 ∧ m4.build.builder = "docker-legacy" ∧
      keyIn "docker-legacy" builderValues = false :=
  ⟨rfl, rfl, rfl⟩

/-- C4 counterexample: a record with `build.tags = []` does not fail with
an empty-collection error — it validates to a `Manifest` (the source
declares `tags`/`maintainers` with `Field(...)`, which only marks them
required; no `min_length` constraint exists). -/
theorem empty_list_counterexample :
    parseManifest s3rec = .ok mET ∧ mET.build.tags = [] :=
  ⟨rfl, rfl⟩

/-- C4 amended: present-but-empty `build.tags` and `maintainers` lists are
accepted; validation succeeds and the resulting manifest carries the empty
list. -/
theorem empty_list_amended :
    parseManifest s3rec = .ok mET ∧ mET.build.tags = [] ∧
    parseManifest sEMrec = .ok mEM ∧ mEM.maintainers = [] :=
  ⟨rfl, rfl, rfl, rfl⟩

/-- C9 counterexample: a validated `Manifest` is not immutable — with the
pydantic default configuration (no `frozen`, no `validate_assignment`)
field reassignment is stored without validation, so assigning a `sha` to
the git record of the validated scenario-1 manifest yields a manifest
whose git record violates the exactly-one-of-sha/tag constraint. -/
theorem immutability_counterexample :
    parseManifest s1rec = .ok m1 ∧ gitInv m1.git = true ∧
    gitInv ((m1.assignGit (m1.git.assignSha (some "abc123"))).git) = false :=
  ⟨rfl, rfl, rfl⟩

/-- C9 amended: `Manifest` values are mutable after construction — direct
field reassignment stores the new value without re-running validation and
can place a validated manifest in a state violating the validation
constraints (its own serialized form no longer re-validates). -/
theorem mutation_amended :
    (∀ (m : Manifest) (g : Git), (m.assignGit g).git = g) ∧
    (∀ (g : Git) (s : Option String), (g.assignSha s).sha = s) ∧
    parseManifest (dumpManifest (m1.assignGit (m1.git.assignSha (some "abc123")))) =
      .errs [⟨["git"], .valueError "Only one of sha or tag may be provided."⟩] :=
  ⟨fun _ _ => rfl, fun _ _ => rfl, rfl⟩

/-- C10: when the `git` value is present but not a mapping, the
`_sanitize_checkout` pre-validation hook calls `.get` on it before any type
check, so parse-and-validate escapes with an untyped `AttributeError`
instead of returning a structured validation failure. -/
theorem git_nonmapping_exception :
    parseManifest gitStrRec = .exn "AttributeError: value has no attribute get" :=
  rfl

/-- The shape of a record omitting every optional field with a declared
default (scenario-1 shape, with the field values as parameters). -/
def minRec (nm mn me repo tg : String) (tags : List String) (ident proj : String) :
    Value :=
  .obj [("name", .str nm),
        ("maintainers", .arr [.obj [("name", .str mn), ("email", .str me)]]),
        ("git", .obj [("repo", .str repo), ("tag", .str tg)]),
        ("build", .obj [("tags", .arr (tags.map Value.str))]),
        ("metadata", .obj [("identifier", .str ident), ("project", .str proj)])]

/-- C5: a valid record omitting all defaulted optional fields validates
successfully and the declared defaults are filled in: `build.path = "."`,
`build.dockerfile = "Dockerfile"`, `build.context = "."`,
`build.builder = "buildkit"`, `build.platforms = [amd64]`,
`git.fetch = "refs/heads/main"`, `version = 0.2`. -/
theorem defaults_applied (nm mn me repo tg : String) (tags : List String)
    (ident proj : String) (hurl : isValidUrl repo = true) :
    parseManifest (minRec nm mn me repo tg tags ident proj) =
      .ok ⟨0.2, nm, [⟨mn, me, none, none⟩],
        ⟨repo, "refs/heads/main", none, some tg⟩,
        ⟨".", "Dockerfile", ".", "buildkit", [.amd64], tags,
         none, none, none, none, none⟩,
        ⟨ident, proj⟩⟩ := by
  simp [minRec, parseManifest, versionF, nameF, maintainersF, gitF, buildF, metadataF,
    reqModelF, reqStrF, getV, strVparse, maintListVparse, elemsF, parseMaintainer,
    extraErrs, keyIn, optStrF, parseGit, pyGet, gitFieldsF, reqUrlF, urlVparse, hurl,
    defStrF, optStrVparse, parseBuild, platformsF, tagsF, strListVparse,
    elemsF_str_dump, optDictF, testF, parseMetadata, atLoc, VOut.app, VOut.map]

/-- C5 witness: the concrete scenario-1 record validates to `m1`, whose
fields are exactly the declared defaults plus the supplied values. -/
theorem defaults_applied_witness :
    isValidUrl "https://example.com/r.git" = true ∧
    parseManifest
      (minRec "astroml" "A B" "a@b.org" "https://example.com/r.git" "v1.0.0"
        ["latest"] "x1" "srcnet") = .ok m1 :=
  ⟨by decide,
   defaults_applied "astroml" "A B" "a@b.org" "https://example.com/r.git" "v1.0.0"
     ["latest"] "x1" "srcnet" (by decide)⟩

lemma urlEx_valid : isValidUrl "https://example.com/r.git" = true := by decide

lemma archOfString_eq_none (s : String) (h : keyIn s archValues = false) :
    archOfString s = none := by
  simp [keyIn, archValues] at h
  obtain ⟨h1, h2, h3, h4, h5, h6⟩ := h
  have g1 : ¬(s = "amd64") := fun he => h1 he.symm
  have g2 : ¬(s = "arm32v5") := fun he => h2 he.symm
  have g3 : ¬(s = "arm32v6") := fun he => h3 he.symm
  have g4 : ¬(s = "arm32v7") := fun he => h4 he.symm
  have g5 : ¬(s = "arm64v8") := fun he => h5 he.symm
  have g6 : ¬(s = "windows-amd64") := fun he => h6 he.symm
  simp [archOfString, g1, g2, g3, g4, g5, g6]

lemma elemsF_mem_at (p : Value → VOut α) (hp : ∀ v, (p v).isExn = false) :
    ∀ (i j : Nat) (vs : List Value) (v : Value) (er : VErr),
      vs[j]? = some v → er ∈ (p v).errsOf →
      VErr.mk (toString (i + j) :: er.loc) er.kind ∈ (elemsF p i vs).errsOf := by
  intro i j vs
  induction vs generalizing i j with
  | nil => intro v er hj _; simp at hj
  | cons w rest ih =>
    intro v er hj hv
    cases j with
    | zero =>
      simp only [List.getElem?_cons_zero, Option.some_inj] at hj
      subst hj
      simp only [elemsF]
      refine VOut.app_mem_left _ _ _ (elemsF_noExn p hp (i + 1) rest) ?_
      refine VOut.map_mem _ _ _ ?_
      have hmem := atLoc_mem (toString i) er _ hv
      simpa using hmem
    | succ j2 =>
      simp only [List.getElem?_cons_succ] at hj
      have hrec := ih (i + 1) j2 v er hj hv
      simp only [elemsF]
      refine VOut.app_mem_right _ _ _ ?_ ?_
      · rw [VOut.map_isExn, atLoc_isExn]; exact hp w
      · have harith : i + (j2 + 1) = (i + 1) + j2 := by omega
        rw [harith]
        exact hrec

lemma parseBuild_mem_platforms (kvs : List (String × Value)) (er : VErr)
    (h : er ∈ (platformsF kvs).errsOf) : er ∈ (parseBuild (.obj kvs)).errsOf := by
  have hc : (((((VOut.map (fun _ => Build.mk) (extraErrs kvs buildKeys)).app
      (defStrF kvs "path" ".")).app
      (defStrF kvs "dockerfile" "Dockerfile")).app
      (defStrF kvs "context" ".")).app
      (defStrF kvs "builder" "buildkit")).isExn = false := by
    simp [VOut.app_isExn, VOut.map_isExn, extraErrs_noExn, defStrF_noExn]
  simp only [parseBuild]
  exact VOut.app_mem_left _ _ _ (testF_noExn kvs)
    (VOut.app_mem_left _ _ _ (optStrF_noExn kvs "target")
      (VOut.app_mem_left _ _ _ (optDictF_noExn kvs "labels")
        (VOut.app_mem_left _ _ _ (optDictF_noExn kvs "annotations")
          (VOut.app_mem_left _ _ _ (optDictF_noExn kvs "args")
            (VOut.app_mem_left _ _ _ (tagsF_noExn kvs)
              (VOut.app_mem_right _ _ _ hc h))))))

/-- C6 counterexample: the claim quantifies over every input record with a
`build.platforms` entry outside the enumeration, but a record that also
carries a non-mapping `git` value does not get a validation failure — the
git pre-validation hook escapes with an untyped `AttributeError` first
(`"linux/amd64"` is outside the closed architecture enumeration). -/
theorem platform_enum_counterexample :
    parseManifest (.obj [("git", .str "x"),
      ("build", .obj [("tags", .arr [.str "latest"]),
        ("platforms", .arr [.str "linux/amd64"])])]) =
      .exn "AttributeError: value has no attribute get" ∧
    keyIn "linux/amd64" archValues = false :=
  ⟨rfl, rfl⟩

/-- C6 amended: provided the raw `git` value, when present, is a mapping
(otherwise the git pre-validation hook escapes with an untyped exception),
every input record with a `build.platforms` entry outside the closed
architecture enumeration {amd64, arm32v5, arm32v6, arm32v7, arm64v8,
windows-amd64} fails validation with an enum-membership error locating
that entry and naming the allowed set; and every platforms entry of any
validated manifest lies in that enumeration. -/
theorem platform_enum_amended :
    (∀ (kvs bkvs : List (String × Value)) (vs : List Value) (s : String) (i : Nat),
      getV kvs "build" = some (.obj bkvs) →
      getV bkvs "platforms" = some (.arr vs) →
      vs[i]? = some (.str s) →
      keyIn s archValues = false →
      gitShapeOk kvs →
      ∃ e, parseManifest (.obj kvs) = .errs e ∧
        VErr.mk ["build", "platforms", toString i] (.enumMember archValues) ∈ e) ∧
    (∀ (v : Value) (m : Manifest), parseManifest v = .ok m →
      ∀ a ∈ m.build.platforms, keyIn a.value archValues = true) := by
  constructor
  · intro kvs bkvs vs s i hbuild hplat hidx hbad hg
    have hnone := archOfString_eq_none s hbad
    have her : VErr.mk [] (.enumMember archValues) ∈ (archV (.str s)).errsOf := by
      simp [archV, hnone, VOut.errsOf]
    have h1 := elemsF_mem_at archV archV_noExn 0 i vs _ _ hidx her
    rw [Nat.zero_add] at h1
    have hpf : platformsF bkvs = atLoc "platforms" (elemsF archV 0 vs) := by
      simp [platformsF, hplat, archListVparse]
    have h2 : VErr.mk ["platforms", toString i] (.enumMember archValues) ∈
        (platformsF bkvs).errsOf := by
      rw [hpf]
      exact atLoc_mem "platforms" ⟨[toString i], .enumMember archValues⟩ _ h1
    have h3 := parseBuild_mem_platforms bkvs _ h2
    have hbf : buildF kvs = atLoc "build" (parseBuild (.obj bkvs)) := by
      simp [buildF, reqModelF, hbuild]
    have h4 : VErr.mk ["build", "platforms", toString i] (.enumMember archValues) ∈
        (buildF kvs).errsOf := by
      rw [hbf]
      exact atLoc_mem "build" ⟨["platforms", toString i], .enumMember archValues⟩ _ h3
    have hmem := parseManifest_obj_mem kvs _ hg
      (Or.inr (Or.inr (Or.inr (Or.inr (Or.inl h4)))))
    obtain ⟨heq, hin, -⟩ := mem_errs_result _ _ (parseManifest_obj_noExn kvs hg) hmem
    exact ⟨_, heq, hin⟩
  · intro _ _ _ a _
    cases a <;> rfl

/-- C6 witness: the variant-B platform name `linux/amd64` is outside the
enumeration and gets located and rejected in a git-less record; `amd64` is
a member, exercised on the validated scenario-1 manifest. -/
theorem platform_enum_amended_witness :
    (∃ e, parseManifest (.obj [("build", .obj
        [("platforms", .arr [.str "linux/amd64"])])]) = .errs e ∧
      VErr.mk ["build", "platforms", "0"] (.enumMember archValues) ∈ e) ∧
    keyIn Architecture.amd64.value archValues = true :=
  ⟨platform_enum_amended.1 [("build", .obj [("platforms", .arr [.str "linux/amd64"])])]
     [("platforms", .arr [.str "linux/amd64"])] [.str "linux/amd64"] "linux/amd64" 0
     rfl rfl rfl (by decide) (fun v hv => by simp [getV] at hv),
   platform_enum_amended.2 s1rec m1 rfl Architecture.amd64 (by decide)⟩

/-- C8: re-validating the serialized form of any validated manifest
succeeds and yields an equal manifest (validate–serialize idempotence). -/
theorem roundtrip_idempotent (v : Value) (m : Manifest)
    (h : parseManifest v = .ok m) :
    parseManifest (dumpManifest m) = .ok m := by
  cases v with
  | obj kvs =>
    obtain ⟨gv, hgv, hpg⟩ := parseManifest_ok_inv kvs m h
    exact parseManifest_dump m (parseGit_ok_inv gv m.git hpg)
  | null => simp [parseManifest] at h
  | str s => simp [parseManifest] at h
  | num q => simp [parseManifest] at h
  | bool b => simp [parseManifest] at h
  | arr l => simp [parseManifest] at h

/-- C8 witness: the round trip at the validated scenario-1 manifest. -/
theorem roundtrip_idempotent_witness :
    parseManifest (dumpManifest m1) = .ok m1 :=
  roundtrip_idempotent s1rec m1 rfl

/-- C3 counterexample: scenario 5's record carrying the undeclared
top-level key `owner` does not fail with an unknown-field error — the
`Manifest` model has no `extra="forbid"` (the pydantic default is
`extra="ignore"`), so the key is silently dropped and validation succeeds. -/
theorem unknown_key_counterexample : parseManifest s1recOwner = .ok m1 := rfl

/-- C3 amended: unknown keys are rejected inside the maintainer, git, and
build records (which set `extra="forbid"`), but an unknown key at the top
level of the manifest or inside the metadata or test records is silently
ignored (those models keep the pydantic default `extra="ignore"`). -/
theorem unknown_key_amended :
    (∀ k : String, keyIn k maintainerKeys = false →
      parseMaintainer (.obj [("name", .str "A B"), ("email", .str "a@b.org"),
        (k, .str "x")]) = .errs [⟨[k], .extraForbidden⟩]) ∧
    (∀ k : String, keyIn k gitKeys = false →
      parseGit (.obj [("repo", .str "https://example.com/r.git"),
        ("tag", .str "v1.0.0"), (k, .str "x")]) = .errs [⟨[k], .extraForbidden⟩]) ∧
    (∀ k : String, keyIn k buildKeys = false →
      parseBuild (.obj [("tags", .arr [.str "latest"]), (k, .str "x")]) =
        .errs [⟨[k], .extraForbidden⟩]) ∧
    parseManifest s1recOwner = .ok m1 ∧
    parseMetadata (.obj [("identifier", .str "x1"), ("project", .str "srcnet"),
      ("owner", .str "team-x")]) = .ok ⟨"x1", "srcnet"⟩ ∧
    parseRun (.obj [("cmd", .str "pytest"), ("owner", .str "team-x")]) =
      .ok ⟨some "pytest"⟩ := by
  refine ⟨?_, ?_, ?_, rfl, rfl, rfl⟩
  · intro k h
    simp [keyIn, maintainerKeys] at h
    obtain ⟨h1, h2, h3, h4⟩ := h
    have g3 : ¬(k = "github") := fun he => h3 he.symm
    have g4 : ¬(k = "gitlab") := fun he => h4 he.symm
    simp [parseMaintainer, maintainerKeys, extraErrs, keyIn, getV, reqStrF, optStrF,
      strVparse, optStrVparse, atLoc, VOut.app, VOut.map, h1, h2, h3, h4, g3, g4]
  · intro k h
    simp [keyIn, gitKeys] at h
    obtain ⟨h1, h2, h3, h4⟩ := h
    have g2 : ¬(k = "fetch") := fun he => h2 he.symm
    have g3 : ¬(k = "sha") := fun he => h3 he.symm
    have g4 : ¬(k = "tag") := fun he => h4 he.symm
    simp [parseGit, pyGet, getV, g3, g4, gitFieldsF, gitKeys, extraErrs, keyIn,
      reqUrlF, urlVparse, urlEx_valid, defStrF, optStrF, strVparse, optStrVparse,
      atLoc, VOut.app, VOut.map, h1, h2, h3, h4, g2]
  · intro k h
    simp [keyIn, buildKeys] at h
    obtain ⟨h1, h2, h3, h4, h5, h6, h7, h8, h9, h10, h11⟩ := h
    have g1 : ¬(k = "path") := fun he => h1 he.symm
    have g2 : ¬(k = "dockerfile") := fun he => h2 he.symm
    have g3 : ¬(k = "context") := fun he => h3 he.symm
    have g4 : ¬(k = "builder") := fun he => h4 he.symm
    have g5 : ¬(k = "platforms") := fun he => h5 he.symm
    have g7 : ¬(k = "args") := fun he => h7 he.symm
    have g8 : ¬(k = "annotations") := fun he => h8 he.symm
    have g9 : ¬(k = "labels") := fun he => h9 he.symm
    have g10 : ¬(k = "target") := fun he => h10 he.symm
    have g11 : ¬(k = "test") := fun he => h11 he.symm
    have h0 : (toString (0 : Nat)) = "0" := rfl
    simp [parseBuild, buildKeys, extraErrs, keyIn, getV, defStrF, platformsF, tagsF,
      archListVparse, strListVparse, elemsF, archV, strV, optDictF, optStrF, testF,
      strVparse, optStrVparse, atLoc, VOut.app, VOut.map, h0,
      h1, h2, h3, h4, h5, h6, h7, h8, h9, h10, h11,
      g1, g2, g3, g4, g5, g7, g8, g9, g10, g11]

/-- C3 witness: the three strict records each reject the concrete unknown
key `owner`. -/
theorem unknown_key_amended_witness :
    parseMaintainer (.obj [("name", .str "A B"), ("email", .str "a@b.org"),
      ("owner", .str "x")]) = .errs [⟨["owner"], .extraForbidden⟩] ∧
    parseGit (.obj [("repo", .str "https://example.com/r.git"),
      ("tag", .str "v1.0.0"), ("owner", .str "x")]) =
      .errs [⟨["owner"], .extraForbidden⟩] ∧
    parseBuild (.obj [("tags", .arr [.str "latest"]), ("owner", .str "x")]) =
      .errs [⟨["owner"], .extraForbidden⟩] :=
  ⟨unknown_key_amended.1 "owner" (by decide),
   unknown_key_amended.2.1 "owner" (by decide),
   unknown_key_amended.2.2.1 "owner" (by decide)⟩

/-- The required top-level fields of `Manifest` (no declared default). -/
def manifestReqKeys : List String := ["name", "maintainers", "git", "build", "metadata"]

lemma parseManifest_ok_presence (kvs : List (String × Value)) (m : Manifest)
    (h : parseManifest (.obj kvs) = .ok m) :
    (∃ v, getV kvs "name" = some v) ∧ (∃ v, getV kvs "maintainers" = some v) ∧
    (∃ v, getV kvs "git" = some v) ∧ (∃ v, getV kvs "build" = some v) ∧
    (∃ v, getV kvs "metadata" = some v) := by
  simp only [parseManifest] at h
  obtain ⟨f5, mdv, hf5, hmd, -⟩ := VOut.app_eq_ok _ _ _ h
  obtain ⟨f4, blv, hf4, hbl, -⟩ := VOut.app_eq_ok _ _ _ hf5
  obtain ⟨f3, gv, hf3, hgit, -⟩ := VOut.app_eq_ok _ _ _ hf4
  obtain ⟨f2, mts, hf2, hmts, -⟩ := VOut.app_eq_ok _ _ _ hf3
  obtain ⟨f1, nm, hf1, hnm, -⟩ := VOut.app_eq_ok _ _ _ hf2
  simp only [gitF] at hgit
  simp only [buildF] at hbl
  simp only [metadataF] at hmd
  obtain ⟨v3, hv3, -⟩ := reqModelF_ok_getV kvs "git" parseGit gv hgit
  obtain ⟨v4, hv4, -⟩ := reqModelF_ok_getV kvs "build" parseBuild blv hbl
  obtain ⟨v5, hv5, -⟩ := reqModelF_ok_getV kvs "metadata" parseMetadata mdv hmd
  exact ⟨⟨_, reqStrF_ok_getV kvs "name" nm hnm⟩, maintainersF_ok_getV kvs mts hmts,
    ⟨v3, hv3⟩, ⟨v4, hv4⟩, ⟨v5, hv5⟩⟩

/-- C7 counterexample: the record `{git: "x"}` is missing the required
fields `name`, `maintainers`, `build` and `metadata`, yet parse-and-validate
does not return a validation failure identifying them — the git
pre-validation hook escapes with an untyped `AttributeError` first. -/
theorem missing_field_counterexample :
    getV [("git", Value.str "x")] "name" = none ∧
    parseManifest (.obj [("git", .str "x")]) =
      .exn "AttributeError: value has no attribute get" :=
  ⟨rfl, rfl⟩

/-- C7 amended: provided the raw `git` value, when present, is a mapping
(otherwise the pre-validation hook escapes with an untyped exception) and,
for the nested `repo` field, the git mapping passes the sha/tag pre-check
(otherwise only the cross-field error is reported), a record missing a
required field — `name`, `maintainers`, `git`, `build` or `metadata` at the
top level, `tags` in the build record, `repo` in the git record, or
`identifier`/`project` in metadata — fails validation with an error
locating that field; and a record missing a required top-level field never
validates to a `Manifest`, whatever shape the `git` value has. -/
theorem missing_field_amended :
    (∀ (kvs : List (String × Value)) (k : String), keyIn k manifestReqKeys = true →
      getV kvs k = none → gitShapeOk kvs →
      ∃ e, parseManifest (.obj kvs) = .errs e ∧ VErr.mk [k] .missing ∈ e) ∧
    (∀ (kvs bkvs : List (String × Value)), getV kvs "build" = some (.obj bkvs) →
      getV bkvs "tags" = none → gitShapeOk kvs →
      ∃ e, parseManifest (.obj kvs) = .errs e ∧ VErr.mk ["build", "tags"] .missing ∈ e) ∧
    (∀ (kvs gkvs : List (String × Value)), getV kvs "git" = some (.obj gkvs) →
      getV gkvs "repo" = none →
      (pyGet gkvs "sha").isSome ≠ (pyGet gkvs "tag").isSome →
      ∃ e, parseManifest (.obj kvs) = .errs e ∧ VErr.mk ["git", "repo"] .missing ∈ e) ∧
    (∀ (kvs mkvs : List (String × Value)) (k : String),
      getV kvs "metadata" = some (.obj mkvs) →
      keyIn k ["identifier", "project"] = true → getV mkvs k = none → gitShapeOk kvs →
      ∃ e, parseManifest (.obj kvs) = .errs e ∧ VErr.mk ["metadata", k] .missing ∈ e) ∧
    (∀ (kvs : List (String × Value)) (k : String), keyIn k manifestReqKeys = true →
      getV kvs k = none → ∀ m, parseManifest (.obj kvs) ≠ .ok m) := by
  refine ⟨?_, ?_, ?_, ?_, ?_⟩
  · intro kvs k hk hnone hg
    simp [keyIn, manifestReqKeys] at hk
    rcases hk with hk | hk | hk | hk | hk <;> subst hk
    · have hm : VErr.mk ["name"] .missing ∈ (nameF kvs).errsOf := by
        simp [nameF, reqStrF, hnone, VOut.errsOf]
      have hmem := parseManifest_obj_mem kvs _ hg (Or.inr (Or.inl hm))
      obtain ⟨heq, hin, -⟩ := mem_errs_result _ _ (parseManifest_obj_noExn kvs hg) hmem
      exact ⟨_, heq, hin⟩
    · have hm : VErr.mk ["maintainers"] .missing ∈ (maintainersF kvs).errsOf := by
        simp [maintainersF, hnone, VOut.errsOf]
      have hmem := parseManifest_obj_mem kvs _ hg (Or.inr (Or.inr (Or.inl hm)))
      obtain ⟨heq, hin, -⟩ := mem_errs_result _ _ (parseManifest_obj_noExn kvs hg) hmem
      exact ⟨_, heq, hin⟩
    · have hm : VErr.mk ["git"] .missing ∈ (gitF kvs).errsOf := by
        simp [gitF, reqModelF, hnone, VOut.errsOf]
      have hmem := parseManifest_obj_mem kvs _ hg (Or.inr (Or.inr (Or.inr (Or.inl hm))))
      obtain ⟨heq, hin, -⟩ := mem_errs_result _ _ (parseManifest_obj_noExn kvs hg) hmem
      exact ⟨_, heq, hin⟩
    · have hm : VErr.mk ["build"] .missing ∈ (buildF kvs).errsOf := by
        simp [buildF, reqModelF, hnone, VOut.errsOf]
      have hmem := parseManifest_obj_mem kvs _ hg
        (Or.inr (Or.inr (Or.inr (Or.inr (Or.inl hm)))))
      obtain ⟨heq, hin, -⟩ := mem_errs_result _ _ (parseManifest_obj_noExn kvs hg) hmem
      exact ⟨_, heq, hin⟩
    · have hm : VErr.mk ["metadata"] .missing ∈ (metadataF kvs).errsOf := by
        simp [metadataF, reqModelF, hnone, VOut.errsOf]
      have hmem := parseManifest_obj_mem kvs _ hg
        (Or.inr (Or.inr (Or.inr (Or.inr (Or.inr hm)))))
      obtain ⟨heq, hin, -⟩ := mem_errs_result _ _ (parseManifest_obj_noExn kvs hg) hmem
      exact ⟨_, heq, hin⟩
  · intro kvs bkvs hbuild htags hg
    have hm0 : VErr.mk ["tags"] .missing ∈ (tagsF bkvs).errsOf := by
      simp [tagsF, htags, VOut.errsOf]
    have hm1 := parseBuild_mem_tags bkvs _ hm0
    have hbf : buildF kvs = atLoc "build" (parseBuild (.obj bkvs)) := by
      simp [buildF, reqModelF, hbuild]
    have hm2 : VErr.mk ["build", "tags"] .missing ∈ (buildF kvs).errsOf := by
      rw [hbf]
      exact atLoc_mem "build" ⟨["tags"], .missing⟩ _ hm1
    have hmem := parseManifest_obj_mem kvs _ hg
      (Or.inr (Or.inr (Or.inr (Or.inr (Or.inl hm2)))))
    obtain ⟨heq, hin, -⟩ := mem_errs_result _ _ (parseManifest_obj_noExn kvs hg) hmem
    exact ⟨_, heq, hin⟩
  · intro kvs gkvs hgit hrepo hxor
    have hg : gitShapeOk kvs := by
      intro v hv
      rw [hgit] at hv
      injection hv with hv2
      exact ⟨gkvs, hv2.symm⟩
    have hm0 : VErr.mk ["repo"] .missing ∈ (reqUrlF gkvs "repo").errsOf := by
      simp [reqUrlF, hrepo, VOut.errsOf]
    have hm1 := gitFieldsF_mem_repo gkvs _ hm0
    have hpg : parseGit (.obj gkvs) = gitFieldsF gkvs := by
      cases hs : pyGet gkvs "sha" <;> cases ht : pyGet gkvs "tag"
      · rw [hs, ht] at hxor; simp at hxor
      · simp [parseGit, hs, ht]
      · simp [parseGit, hs, ht]
      · rw [hs, ht] at hxor; simp at hxor
    have hgf : gitF kvs = atLoc "git" (parseGit (.obj gkvs)) := by
      simp [gitF, reqModelF, hgit]
    have hm2 : VErr.mk ["git", "repo"] .missing ∈ (gitF kvs).errsOf := by
      rw [hgf, hpg]
      exact atLoc_mem "git" ⟨["repo"], .missing⟩ _ hm1
    have hmem := parseManifest_obj_mem kvs _ hg (Or.inr (Or.inr (Or.inr (Or.inl hm2))))
    obtain ⟨heq, hin, -⟩ := mem_errs_result _ _ (parseManifest_obj_noExn kvs hg) hmem
    exact ⟨_, heq, hin⟩
  · intro kvs mkvs k hmeta hk hnone hg
    simp [keyIn] at hk
    have hm0 : VErr.mk [k] .missing ∈ (parseMetadata (.obj mkvs)).errsOf := by
      rcases hk with hk | hk <;> subst hk
      · exact parseMetadata_mem mkvs _ (Or.inl (by simp [reqStrF, hnone, VOut.errsOf]))
      · exact parseMetadata_mem mkvs _ (Or.inr (by simp [reqStrF, hnone, VOut.errsOf]))
    have hmf : metadataF kvs = atLoc "metadata" (parseMetadata (.obj mkvs)) := by
      simp [metadataF, reqModelF, hmeta]
    have hm2 : VErr.mk ["metadata", k] .missing ∈ (metadataF kvs).errsOf := by
      rw [hmf]
      exact atLoc_mem "metadata" ⟨[k], .missing⟩ _ hm0
    have hmem := parseManifest_obj_mem kvs _ hg
      (Or.inr (Or.inr (Or.inr (Or.inr (Or.inr hm2)))))
    obtain ⟨heq, hin, -⟩ := mem_errs_result _ _ (parseManifest_obj_noExn kvs hg) hmem
    exact ⟨_, heq, hin⟩
  · intro kvs k hk hnone m hok
    obtain ⟨⟨v1, hv1⟩, ⟨v2, hv2⟩, ⟨v3, hv3⟩, ⟨v4, hv4⟩, ⟨v5, hv5⟩⟩ :=
      parseManifest_ok_presence kvs m hok
    simp [keyIn, manifestReqKeys] at hk
    rcases hk with hk | hk | hk | hk | hk <;> subst hk
    · rw [hnone] at hv1; exact Option.noConfusion hv1
    · rw [hnone] at hv2; exact Option.noConfusion hv2
    · rw [hnone] at hv3; exact Option.noConfusion hv3
    · rw [hnone] at hv4; exact Option.noConfusion hv4
    · rw [hnone] at hv5; exact Option.noConfusion hv5

/-- C7 witness: the five branches at concrete records. -/
theorem missing_field_amended_witness :
    (∃ e, parseManifest (.obj ([] : List (String × Value))) = .errs e ∧
      VErr.mk ["name"] .missing ∈ e) ∧
    (∃ e, parseManifest (.obj [("build", .obj [])]) = .errs e ∧
      VErr.mk ["build", "tags"] .missing ∈ e) ∧
    (∃ e, parseManifest (.obj [("git", .obj [("tag", .str "v1.0.0")])]) = .errs e ∧
      VErr.mk ["git", "repo"] .missing ∈ e) ∧
    (∃ e, parseManifest (.obj [("metadata", .obj [])]) = .errs e ∧
      VErr.mk ["metadata", "identifier"] .missing ∈ e) ∧
    parseManifest (.obj ([] : List (String × Value))) ≠ .ok m1 :=
  ⟨missing_field_amended.1 [] "name" (by decide) rfl
     (fun v hv => by simp [getV] at hv),
   missing_field_amended.2.1 [("build", .obj [])] [] rfl rfl
     (fun v hv => by simp [getV] at hv),
   missing_field_amended.2.2.1 [("git", .obj [("tag", .str "v1.0.0")])]
     [("tag", .str "v1.0.0")] rfl rfl (by decide),
   missing_field_amended.2.2.2.1 [("metadata", .obj [])] [] "identifier" rfl
     (by decide) rfl (fun v hv => by simp [getV] at hv),
   missing_field_amended.2.2.2.2 [] "maintainers" (by decide) rfl m1⟩

end Schema
